import Mathlib

/-!
Shallow embedding of the CIFAR-10 input pipeline and hyperparameter policy
of `official/resnet/cifar10_main.py`.

Bytes are modelled as natural numbers (each in `0..255`); real-valued tensor
entries are modelled as rationals where the code only casts integers, and as
reals where the code takes square roots (per-image standardization).  Fallible
operations return `Except String`.
-/

namespace Cifar10

/-- Constant `_HEIGHT = 32` of cifar10_main.py. -/
abbrev HEIGHT : Nat := 32

/-- Constant `_WIDTH = 32`. -/
abbrev WIDTH : Nat := 32

/-- Constant `_NUM_CHANNELS = 3`. -/
abbrev NUM_CHANNELS : Nat := 3

/-- Constant `_DEFAULT_IMAGE_SIZE = _HEIGHT * _WIDTH * _NUM_CHANNELS`. -/
abbrev DEFAULT_IMAGE_SIZE : Nat := HEIGHT * WIDTH * NUM_CHANNELS

/-- Constant `_NUM_CLASSES = 10`. -/
abbrev NUM_CLASSES : Nat := 10

/-- Constant `_NUM_DATA_FILES = 5`. -/
abbrev NUM_DATA_FILES : Nat := 5

/-- Local constant `label_bytes = 1` of `parse_record`. -/
abbrev label_bytes : Nat := 1

/-- Local constant `record_bytes = label_bytes + _DEFAULT_IMAGE_SIZE` of
`parse_record`): the record size the decoder consumes. -/
abbrev parse_record_bytes : Nat := label_bytes + DEFAULT_IMAGE_SIZE

/-- Local constant `record_bytes = _DEFAULT_IMAGE_SIZE + 1` of
`record_dataset`): the fixed slice length handed to
`tf.data.FixedLengthRecordDataset`. -/
abbrev record_dataset_record_bytes : Nat := DEFAULT_IMAGE_SIZE + 1

/-- A decoded image tensor of layout `[height][width][depth]` with rational
entries (the code casts bytes to float32; the values `0..255` are exact). -/
abbrev Image := Fin HEIGHT → Fin WIDTH → Fin NUM_CHANNELS → ℚ

/-- A label vector of length `_NUM_CLASSES`. -/
abbrev LabelVec := Fin NUM_CLASSES → ℚ

/-- Models `tf.one_hot(label, _NUM_CLASSES)`: entry `j` is `1` exactly when
`j = label`; an out-of-range `label` yields the all-zero vector (TensorFlow
semantics: no error is raised). -/
def one_hot (label : Nat) : LabelVec :=
  fun j => if j.val = label then 1 else 0

/-- Models `tf.reshape(v, [d1, d2, d3])` on a flat vector: row-major re-indexing,
failing when the element count does not match (the TensorFlow runtime raises
an invalid-argument error then). -/
def reshape3 (v : List Nat) (d₁ d₂ d₃ : Nat) :
    Except String (Fin d₁ → Fin d₂ → Fin d₃ → Nat) :=
  if v.length = d₁ * d₂ * d₃ then
    .ok (fun i j k => v.getD (i.val * (d₂ * d₃) + j.val * d₃ + k.val) 0)
  else
    .error "Input to reshape is a tensor with the wrong number of values"

/-- Models `tf.transpose(t, [1, 2, 0])` on a rank-3 tensor. -/
def transpose120 {d₁ d₂ d₃ : Nat} {α : Type}
    (t : Fin d₁ → Fin d₂ → Fin d₃ → α) : Fin d₂ → Fin d₃ → Fin d₁ → α :=
  fun j k i => t i j k

/-- Embedding of `parse_record(raw_record)`: byte 0 becomes a one-hot label, bytes
`[label_bytes:record_bytes]` are reshaped to `[depth, height, width]`,
transposed to `[height, width, depth]` and cast to float.  Python slicing
clamps, so a too-short buffer fails only at the reshape (and an empty buffer
at the indexing `record_vector[0]`); extra trailing bytes are sliced away. -/
def parse_record (raw_record : List Nat) : Except String (Image × LabelVec) :=
  match raw_record with
  | [] => .error "slice index 0 of dimension 0 out of bounds"
  | b :: _ =>
    let label : LabelVec := one_hot b
    let image_bytes :=
      (raw_record.drop label_bytes).take (parse_record_bytes - label_bytes)
    match reshape3 image_bytes NUM_CHANNELS HEIGHT WIDTH with
    | .error e => .error e
    | .ok depth_major =>
      let image : Image :=
        fun h w c => ((transpose120 depth_major h w c : Nat) : ℚ)
      .ok (image, label)

/-- A synthetic raw record: one label byte followed by the
`_DEFAULT_IMAGE_SIZE` pixel bytes `pix 0, pix 1, ...` in channel-major
order. -/
def encode_record (label : Nat) (pix : Nat → Nat) : List Nat :=
  label :: (List.range DEFAULT_IMAGE_SIZE).map pix

/-- A one-hot vector in the sense of the glossary: a single `1` at index `i`
and `0` elsewhere. -/
def one_hot_at (v : LabelVec) (i : Nat) : Prop :=
  (∃ j : Fin NUM_CLASSES, j.val = i ∧ v j = 1) ∧
    ∀ j : Fin NUM_CLASSES, j.val ≠ i → v j = 0

/-- Embedding of `Cifar10Model._get_layers(resnet_size)`: rejects sizes with
`resnet_size % 6 != 2` (a `ValueError` in the code), otherwise returns
`[num_blocks] * 3` with `num_blocks = (resnet_size - 2) // 6`.  Python's `%`
and `//` on ints are Euclidean remainder and floor division, i.e. `Int.emod`
and `Int.fdiv` for the positive modulus `6`. -/
def get_layers (resnet_size : Int) : Except String (List Int) :=
  if resnet_size % 6 ≠ 2 then
    .error "resnet_size must be 6n + 2"
  else
    let num_blocks := (resnet_size - 2).fdiv 6
    .ok (List.replicate 3 num_blocks)

/-- Embedding of `Cifar10Model._get_stride_sizes()`. -/
def get_stride_sizes : List Nat := [1, 1, 2, 2, 1]

/-- A learning-rate schedule: `base_rate`, step `boundaries`, and the
piecewise-constant `rates` (one more entry than `boundaries`). -/
structure LRSchedule where
  base_rate : ℚ
  boundaries : List Nat
  rates : List ℚ

/-- Modelled from the spec: `learning_rate_with_decay` is implemented in
`resnet_shared`, which is not among this repository's source files — only its
call site in `cifar10_model_fn` is.  Per the spec: `base_rate = 0.1 *
batch_size / batch_denom`; `boundaries[i] = floor(num_train_images /
batch_size) * boundary_epochs[i]`; `rates[i] = base_rate * decay_rates[i]`;
`len(decay_rates)` must equal `len(boundary_epochs) + 1`, a mismatch being a
`ConfigError`. -/
def build_lr_schedule (batch_size batch_denom num_images : Nat)
    (boundary_epochs : List Nat) (decay_rates : List ℚ) :
    Except String LRSchedule :=
  if decay_rates.length = boundary_epochs.length + 1 then
    let base_rate : ℚ := (1 / 10) * batch_size / batch_denom
    .ok { base_rate := base_rate
          boundaries := boundary_epochs.map fun e => num_images / batch_size * e
          rates := decay_rates.map fun d => base_rate * d }
  else
    .error "decay_rates must have one more element than boundary_epochs"

/-- Modelled from the spec: `lookup(global_step)` returns `rates[k]` where
`k` is the count of boundaries that are `<= global_step`. -/
def lookup (s : LRSchedule) (global_step : Nat) : ℚ :=
  s.rates.getD (s.boundaries.countP fun b => decide (b ≤ global_step)) 0

/-- Models `os.path.join(a, b)` for a relative second component. -/
def path_join (a b : String) : String := a ++ "/" ++ b

/-- Embedding of `get_filenames(is_training, data_dir)`: asserts that the extracted data
directory exists (aborting with a "download first" message otherwise — the
filesystem is modelled by the `path_exists` oracle), then resolves
`data_batch_1.bin .. data_batch_5.bin` for training and `test_batch.bin` for
evaluation. -/
def get_filenames (path_exists : String → Bool) (is_training : Bool)
    (data_dir : String) : Except String (List String) :=
  let data_dir := path_join data_dir "cifar-10-batches-bin"
  if path_exists data_dir then
    if is_training then
      .ok ((List.range' 1 NUM_DATA_FILES).map fun i =>
        path_join data_dir ("data_batch_" ++ toString i ++ ".bin"))
    else
      .ok [path_join data_dir "test_batch.bin"]
  else
    .error "Run cifar10_download_and_extract.py first to download and extract the CIFAR-10 data."

/-- Models `tf.data.FixedLengthRecordDataset(filenames, record_bytes)` on the
bytes of one file: the stream of consecutive `record_bytes`-sized slices;
trailing bytes that do not fill a whole record are not emitted. -/
def fixed_length_records (record_bytes : Nat) (data : List Nat) :
    List (List Nat) :=
  if record_bytes = 0 then []
  else if data.length < record_bytes then []
  else
    data.take record_bytes :: fixed_length_records record_bytes
      (data.drop record_bytes)
termination_by data.length
decreasing_by
  simp only [List.length_drop]
  omega

/-- Models `dataset.batch(batch_size)` of `input_fn`: groups the stream into consecutive
batches of `batch_size` elements; the final batch is smaller when the element
count is not a multiple of `batch_size` (TensorFlow `batch` keeps the
remainder). -/
def batch_dataset {α : Type} (batch_size : Nat) (xs : List α) :
    List (List α) :=
  if batch_size = 0 then []
  else if xs.isEmpty then []
  else xs.take batch_size :: batch_dataset batch_size (xs.drop batch_size)
termination_by xs.length
decreasing_by
  rename_i hb hxs
  simp only [List.isEmpty_iff, ← List.length_eq_zero] at hxs
  simp only [List.length_drop]
  omega

/-- An image tensor with real entries, for the standardization step (whose
square root leaves the rationals). -/
abbrev RImage := Fin HEIGHT → Fin WIDTH → Fin NUM_CHANNELS → ℝ

/-- Mean of all `H*W*C` pixel values of one image. -/
noncomputable def image_mean (img : RImage) : ℝ :=
  (∑ h : Fin HEIGHT, ∑ w : Fin WIDTH, ∑ c : Fin NUM_CHANNELS, img h w c) /
    (HEIGHT * WIDTH * NUM_CHANNELS : ℕ)

/-- Variance of all pixel values of one image. -/
noncomputable def image_variance (img : RImage) : ℝ :=
  (∑ h : Fin HEIGHT, ∑ w : Fin WIDTH, ∑ c : Fin NUM_CHANNELS,
      (img h w c - image_mean img) ^ 2) /
    (HEIGHT * WIDTH * NUM_CHANNELS : ℕ)

/-- Models `tf.image.per_image_standardization(image)`: subtract the image's own mean
and divide by `adjusted_stddev = max(stddev, 1.0 / sqrt(num_elements))`, the
numerical floor that keeps the divisor away from zero. -/
noncomputable def per_image_standardization (img : RImage) : RImage :=
  let adjusted_stddev :=
    max (Real.sqrt (image_variance img))
      (1 / Real.sqrt (HEIGHT * WIDTH * NUM_CHANNELS : ℕ))
  fun h w c => (img h w c - image_mean img) / adjusted_stddev

/-- Models `tf.image.resize_image_with_crop_or_pad(image, _HEIGHT + 8, _WIDTH + 8)`:
the target exceeds the source by 8 in both spatial dimensions, so the image is
zero-padded by 4 pixels on each side. -/
def resize_with_crop_or_pad (img : RImage) :
    Fin (HEIGHT + 8) → Fin (WIDTH + 8) → Fin NUM_CHANNELS → ℝ :=
  fun h w c =>
    if hin : 4 ≤ h.val ∧ h.val < HEIGHT + 4 ∧ 4 ≤ w.val ∧ w.val < WIDTH + 4
    then img ⟨h.val - 4, by omega⟩ ⟨w.val - 4, by omega⟩ c
    else 0

/-- Models `tf.random_crop(image, [_HEIGHT, _WIDTH, _NUM_CHANNELS])`: reads a
`_HEIGHT × _WIDTH` window of the padded image at the drawn offsets. -/
def random_crop
    (big : Fin (HEIGHT + 8) → Fin (WIDTH + 8) → Fin NUM_CHANNELS → ℝ)
    (dy dx : Fin 9) : RImage :=
  fun h w c =>
    big ⟨dy.val + h.val, by have := dy.isLt; have := h.isLt; omega⟩
      ⟨dx.val + w.val, by have := dx.isLt; have := w.isLt; omega⟩ c

/-- Models `tf.image.random_flip_left_right(image)`: mirrors the columns when the
drawn coin says so. -/
def random_flip_left_right (img : RImage) (flip : Bool) : RImage :=
  if flip then fun h w c => img h ⟨WIDTH - 1 - w.val, by omega⟩ c else img

/-- The random draws consumed by one training-time call of
`preprocess_image`: the crop offsets and the flip coin. -/
structure AugRand where
  crop_dy : Fin 9
  crop_dx : Fin 9
  flip : Bool

/-- Embedding of `preprocess_image(image, is_training)`: at training time pad, randomly
crop and randomly flip; always standardize per image.  The per-call random
draws are passed explicitly and are only consumed on the training path. -/
noncomputable def preprocess_image (image : RImage) (is_training : Bool)
    (r : AugRand) : RImage :=
  let image :=
    if is_training then
      random_flip_left_right
        (random_crop (resize_with_crop_or_pad image) r.crop_dy r.crop_dx)
        r.flip
    else image
  per_image_standardization image

/-! ### Lemmas about the record decoder -/

theorem getD_take_of_lt (l : List Nat) (n k : Nat) (hk : k < n) :
    (l.take n).getD k 0 = l.getD k 0 := by
  simp [List.getD_eq_getElem?_getD, List.getElem?_take, hk]

theorem parse_record_cons_ok (b : Nat) (rest : List Nat)
    (hlen : DEFAULT_IMAGE_SIZE ≤ rest.length) :
    parse_record (b :: rest) =
      .ok (fun h w c =>
            ((rest.getD (c.val * (HEIGHT * WIDTH) + h.val * WIDTH + w.val) 0 :
              Nat) : ℚ),
          one_hot b) := by
  have htake : (rest.take (parse_record_bytes - label_bytes)).length
      = NUM_CHANNELS * HEIGHT * WIDTH := by
    simp only [List.length_take, DEFAULT_IMAGE_SIZE, HEIGHT, WIDTH,
      NUM_CHANNELS, parse_record_bytes, label_bytes] at *
    omega
  have key : ∀ (h : Fin HEIGHT) (w : Fin WIDTH) (c : Fin NUM_CHANNELS),
      (rest.take (parse_record_bytes - label_bytes)).getD
        (c.val * (HEIGHT * WIDTH) + h.val * WIDTH + w.val) 0
      = rest.getD (c.val * (HEIGHT * WIDTH) + h.val * WIDTH + w.val) 0 := by
    intro h w c
    apply getD_take_of_lt
    have hh := h.isLt
    have hw := w.isLt
    have hc := c.isLt
    simp only [parse_record_bytes, label_bytes, DEFAULT_IMAGE_SIZE, HEIGHT,
      WIDTH, NUM_CHANNELS] at *
    omega
  simp only [parse_record, List.drop_one, List.tail_cons, reshape3, htake,
    eq_self_iff_true, if_true, transpose120]
  refine congrArg Except.ok ?_
  refine Prod.ext ?_ rfl
  funext h w c
  exact congrArg (fun n : Nat => (n : ℚ)) (key h w c)

theorem parse_record_error_of_short (raw : List Nat)
    (h : raw.length < parse_record_bytes) :
    ∃ e, parse_record raw = .error e := by
  match raw with
  | [] => exact ⟨_, rfl⟩
  | b :: rest =>
    have hlen : ¬ (rest.take (parse_record_bytes - label_bytes)).length
        = NUM_CHANNELS * HEIGHT * WIDTH := by
      simp only [List.length_cons, List.length_take, parse_record_bytes,
        label_bytes, DEFAULT_IMAGE_SIZE, HEIGHT, WIDTH, NUM_CHANNELS] at *
      omega
    refine ⟨"Input to reshape is a tensor with the wrong number of values", ?_⟩
    simp only [parse_record, List.drop_one, List.tail_cons, reshape3, hlen,
      if_false]

theorem parse_record_ok_of_long (raw : List Nat)
    (h : parse_record_bytes ≤ raw.length) :
    ∃ s, parse_record raw = .ok s := by
  match raw with
  | [] => simp [parse_record_bytes] at h
  | b :: rest =>
    refine ⟨_, parse_record_cons_ok b rest ?_⟩
    simp only [List.length_cons, parse_record_bytes, label_bytes] at *
    omega

/-- C1 (amended: the label byte must be a valid class index, i.e. `< 10`;
`tf.one_hot` returns the all-zero vector, not a one-hot vector, for an
out-of-range label).  For every raw record of exactly 3073 bytes whose label
byte is `< NUM_CLASSES`, `parse_record` returns the label as a one-hot vector
of length 10 indexed by byte 0, and an image whose pixel `[row][col][channel]`
is the raw byte at offset `1 + channel*32*32 + row*32 + col`, cast with no
rescaling — so encoding a synthetic record and decoding it recovers label and
pixels bit-for-bit. -/
theorem parse_roundtrip (raw : List Nat)
    (hlen : raw.length = 1 + DEFAULT_IMAGE_SIZE)
    (hlab : raw.getD 0 0 < NUM_CLASSES) :
    ∃ img lab, parse_record raw = .ok (img, lab) ∧
      one_hot_at lab (raw.getD 0 0) ∧
      ∀ (h : Fin HEIGHT) (w : Fin WIDTH) (c : Fin NUM_CHANNELS),
        img h w c =
          ((raw.getD (1 + (c.val * (HEIGHT * WIDTH) + h.val * WIDTH + w.val))
              0 : Nat) : ℚ) := by
  match raw with
  | [] => simp at hlen
  | b :: rest =>
    have hrest : DEFAULT_IMAGE_SIZE ≤ rest.length := by
      simp only [List.length_cons] at hlen; omega
    refine ⟨_, _, parse_record_cons_ok b rest hrest, ?_, ?_⟩
    · have hb : (b :: rest).getD 0 0 = b := rfl
      rw [hb] at hlab ⊢
      exact ⟨⟨⟨b, hlab⟩, rfl, by simp [one_hot]⟩,
        fun j hj => by simp [one_hot, hj]⟩
    · intro h w c
      have : (1 + (c.val * (HEIGHT * WIDTH) + h.val * WIDTH + w.val))
          = (c.val * (HEIGHT * WIDTH) + h.val * WIDTH + w.val) + 1 := by omega
      rw [this, List.getD_cons_succ]

/-- Witness for C1 at a concrete synthetic record with label byte 3. -/
theorem parse_roundtrip_witness :
    (encode_record 3 (fun i => i % 251)).length = 1 + DEFAULT_IMAGE_SIZE ∧
    (encode_record 3 (fun i => i % 251)).getD 0 0 < NUM_CLASSES ∧
    ∃ img lab,
      parse_record (encode_record 3 (fun i => i % 251)) = .ok (img, lab) ∧
      one_hot_at lab ((encode_record 3 (fun i => i % 251)).getD 0 0) ∧
      ∀ (h : Fin HEIGHT) (w : Fin WIDTH) (c : Fin NUM_CHANNELS),
        img h w c =
          (((encode_record 3 (fun i => i % 251)).getD
              (1 + (c.val * (HEIGHT * WIDTH) + h.val * WIDTH + w.val))
              0 : Nat) : ℚ) :=
  ⟨by
      simp only [encode_record, List.length_cons, List.length_map,
        List.length_range]
      omega,
    by simp only [encode_record, List.getD_cons_zero, NUM_CLASSES]; omega,
    parse_roundtrip _
      (by
        simp only [encode_record, List.length_cons, List.length_map,
          List.length_range]
        omega)
      (by simp only [encode_record, List.getD_cons_zero, NUM_CLASSES]; omega)⟩

/-- C1 counterexample: on the 3073-byte record whose label byte is 255, the
decoder succeeds but returns the all-zero label vector, which is not a
one-hot vector indexed by byte 0 — so the claim fails without the
`label < NUM_CLASSES` restriction. -/
theorem parse_roundtrip_counterexample :
    ∃ img lab, parse_record (255 :: List.replicate 3072 3) = .ok (img, lab) ∧
      ¬ one_hot_at lab 255 := by
  refine ⟨_, _, parse_record_cons_ok 255 _ (by
    simp only [List.length_replicate, DEFAULT_IMAGE_SIZE, HEIGHT, WIDTH,
      NUM_CHANNELS]
    omega), ?_⟩
  rintro ⟨⟨j, hj, -⟩, -⟩
  have hlt : j.val < 10 := j.isLt
  omega

/-- C3 counterexample: the claim says `parse` rejects every buffer whose
length differs from 3073 and every label byte `≥ 10`; but the code decodes a
3073-byte record with label byte 255 and also a 3074-byte buffer without any
error, producing a sample in both cases. -/
theorem parse_no_format_errors :
    (∃ s, parse_record (255 :: List.replicate 3072 0) = .ok s) ∧
    (∃ s, parse_record (List.replicate 3074 0) = .ok s) :=
  ⟨parse_record_ok_of_long _ (by
      simp only [List.length_cons, List.length_replicate, parse_record_bytes,
        label_bytes, DEFAULT_IMAGE_SIZE, HEIGHT, WIDTH, NUM_CHANNELS]
      omega),
    parse_record_ok_of_long _ (by
      simp only [List.length_replicate, parse_record_bytes, label_bytes,
        DEFAULT_IMAGE_SIZE, HEIGHT, WIDTH, NUM_CHANNELS]
      omega)⟩

/-- C3 (amended): `parse_record` fails — with the runtime errors of the
slicing and reshape operations, not a dedicated `FormatError` — exactly on
buffers shorter than 3073 bytes, producing no sample there; a buffer of 3073
bytes or more always decodes successfully (extra trailing bytes are sliced
away), and the label byte is never range-checked. -/
theorem parse_wrong_length (raw : List Nat) :
    (raw.length < 1 + DEFAULT_IMAGE_SIZE → ∃ e, parse_record raw = .error e) ∧
    (1 + DEFAULT_IMAGE_SIZE ≤ raw.length → ∃ s, parse_record raw = .ok s) :=
  ⟨fun h => parse_record_error_of_short raw h,
    fun h => parse_record_ok_of_long raw h⟩

/-- Witness for C3 (amended) at a 3072-byte and a 3073-byte buffer. -/
theorem parse_wrong_length_witness :
    (∃ e, parse_record (List.replicate 3072 1) = .error e) ∧
    (∃ s, parse_record (List.replicate 3073 1) = .ok s) :=
  ⟨(parse_wrong_length (List.replicate 3072 1)).1 (by
      simp only [List.length_replicate, DEFAULT_IMAGE_SIZE, HEIGHT, WIDTH,
        NUM_CHANNELS]
      omega),
    (parse_wrong_length (List.replicate 3073 1)).2 (by
      simp only [List.length_replicate, DEFAULT_IMAGE_SIZE, HEIGHT, WIDTH,
        NUM_CHANNELS]
      omega)⟩

/-- C9: a 3073-byte record whose label byte is `≥ 10` decodes without any
error, and its label vector is all-zero — no index is set hot, so out-of-range
labels pass through the decoder silently. -/
theorem parse_out_of_range_label (raw : List Nat)
    (hlen : raw.length = 1 + DEFAULT_IMAGE_SIZE)
    (hlab : NUM_CLASSES ≤ raw.getD 0 0) :
    ∃ img lab, parse_record raw = .ok (img, lab) ∧
      ∀ j : Fin NUM_CLASSES, lab j = 0 := by
  match raw with
  | [] => simp at hlen
  | b :: rest =>
    have hrest : DEFAULT_IMAGE_SIZE ≤ rest.length := by
      simp only [List.length_cons] at hlen; omega
    refine ⟨_, _, parse_record_cons_ok b rest hrest, fun j => ?_⟩
    have hb : (b :: rest).getD 0 0 = b := rfl
    rw [hb] at hlab
    have : j.val ≠ b := by have := j.isLt; omega
    simp [one_hot, this]

/-- Witness for C9 at a concrete record with label byte 255. -/
theorem parse_out_of_range_label_witness :
    (255 :: List.replicate 3072 7).length = 1 + DEFAULT_IMAGE_SIZE ∧
    NUM_CLASSES ≤ (255 :: List.replicate 3072 7).getD 0 0 ∧
    ∃ img lab, parse_record (255 :: List.replicate 3072 7) = .ok (img, lab) ∧
      ∀ j : Fin NUM_CLASSES, lab j = 0 :=
  ⟨by
      simp only [List.length_cons, List.length_replicate, DEFAULT_IMAGE_SIZE,
        HEIGHT, WIDTH, NUM_CHANNELS],
    by decide,
    parse_out_of_range_label _
      (by
        simp only [List.length_cons, List.length_replicate,
          DEFAULT_IMAGE_SIZE, HEIGHT, WIDTH, NUM_CHANNELS])
      (by decide)⟩

/-! ### Stage layout, learning-rate schedule, file resolution -/

/-- C2: for every `resnet_size ≡ 2 (mod 6)`, `_get_layers` returns exactly 3
stages of `(resnet_size - 2) / 6` blocks each — the division being exact —
and the stride sequence is the fixed `[1, 1, 2, 2, 1]`. -/
theorem stage_layout (n : Int) (h : n % 6 = 2) :
    get_layers n = .ok [(n - 2).fdiv 6, (n - 2).fdiv 6, (n - 2).fdiv 6] ∧
    6 * ((n - 2).fdiv 6) = n - 2 ∧
    get_stride_sizes = [1, 1, 2, 2, 1] := by
  have key : n - 2 = 6 * (n / 6) := by
    have := Int.ediv_add_emod n 6
    omega
  refine ⟨by simp [get_layers, h, List.replicate], ?_, rfl⟩
  rw [key, Int.mul_fdiv_cancel_left _ (by norm_num)]

/-- Witness for C2 at the default `resnet_size = 32` (five blocks per
stage). -/
theorem stage_layout_witness :
    (32 : Int) % 6 = 2 ∧
    (get_layers 32 =
        .ok [((32 : Int) - 2).fdiv 6, ((32 : Int) - 2).fdiv 6,
          ((32 : Int) - 2).fdiv 6] ∧
      6 * (((32 : Int) - 2).fdiv 6) = (32 : Int) - 2 ∧
      get_stride_sizes = [1, 1, 2, 2, 1]) :=
  ⟨by decide, stage_layout 32 (by decide)⟩

/-- C5: for every `resnet_size` not `≡ 2 (mod 6)`, `_get_layers` fails (a
`ValueError` in the code) and produces no stage layout. -/
theorem stage_layout_invalid (n : Int) (h : n % 6 ≠ 2) :
    ∃ e, get_layers n = .error e :=
  ⟨"resnet_size must be 6n + 2", by simp [get_layers, h]⟩

/-- Witness for C5 at `resnet_size = 10`. -/
theorem stage_layout_invalid_witness :
    (10 : Int) % 6 ≠ 2 ∧ ∃ e, get_layers 10 = .error e :=
  ⟨by decide, stage_layout_invalid 10 (by decide)⟩

/-- C4: with `batch_size = 128`, `batch_denom = 128`, 50000 training images,
boundary epochs `[100, 150, 200]` and decay rates `[1, 0.1, 0.01, 1e-3]`, the
schedule has `base_rate = 0.1`, step boundaries `[39000, 58500, 78000]`
(`floor(50000/128) = 390` steps per epoch), rates `base_rate * decay_rates[i]
= [0.1, 0.01, 0.001, 0.0001]`, and the lookup returns `rates[k]` with `k` the
count of boundaries `≤ global_step`: `lookup 0 = 0.1`, `lookup 39000 = 0.01`,
`lookup 100000 = 0.0001`. -/
theorem cifar10_lr_schedule :
    ∃ s, build_lr_schedule 128 128 50000 [100, 150, 200]
        [1, 1 / 10, 1 / 100, 1 / 1000] = .ok s ∧
      s.base_rate = 1 / 10 ∧
      s.boundaries = [390 * 100, 390 * 150, 390 * 200] ∧
      s.rates = [1 / 10, 1 / 100, 1 / 1000, 1 / 10000] ∧
      lookup s 0 = 1 / 10 ∧
      lookup s 39000 = 1 / 100 ∧
      lookup s 100000 = 1 / 10000 := by
  refine ⟨_, rfl, ?_, ?_, ?_, ?_, ?_, ?_⟩
  · norm_num
  · decide
  · norm_num [List.map]
  · norm_num [lookup, List.countP, List.countP.go, List.getD, List.map]
  · norm_num [lookup, List.countP, List.countP.go, List.getD, List.map]
  · norm_num [lookup, List.countP, List.countP.go, List.getD, List.map]

/-- C6: `get_filenames` resolves the five fixed training shards
`data_batch_1.bin .. data_batch_5.bin` when `is_training`, and the single
`test_batch.bin` otherwise; when the extracted data directory is absent it
fails before looking at any file contents. -/
theorem enumerate_files (path_exists : String → Bool) (is_training : Bool)
    (data_dir : String) :
    (path_exists (path_join data_dir "cifar-10-batches-bin") = false →
      ∃ e, get_filenames path_exists is_training data_dir = .error e) ∧
    (path_exists (path_join data_dir "cifar-10-batches-bin") = true →
      get_filenames path_exists is_training data_dir = .ok
        (if is_training then
          [path_join (path_join data_dir "cifar-10-batches-bin")
              "data_batch_1.bin",
            path_join (path_join data_dir "cifar-10-batches-bin")
              "data_batch_2.bin",
            path_join (path_join data_dir "cifar-10-batches-bin")
              "data_batch_3.bin",
            path_join (path_join data_dir "cifar-10-batches-bin")
              "data_batch_4.bin",
            path_join (path_join data_dir "cifar-10-batches-bin")
              "data_batch_5.bin"]
        else
          [path_join (path_join data_dir "cifar-10-batches-bin")
              "test_batch.bin"])) := by
  constructor
  · intro h
    refine ⟨"Run cifar10_download_and_extract.py first to download and extract the CIFAR-10 data.", ?_⟩
    simp [get_filenames, h]
  · intro h
    cases is_training
    · simp [get_filenames, h]
    · simp only [get_filenames, h, NUM_DATA_FILES, List.range', if_true,
        List.map_cons, List.map_nil]
      exact congrArg Except.ok (by
        refine congrArg₂ List.cons rfl ?_
        refine congrArg₂ List.cons rfl ?_
        refine congrArg₂ List.cons rfl ?_
        refine congrArg₂ List.cons rfl ?_
        rfl)

/-- Witness for C6 with an oracle that reports the directory as present, and
one that reports it as absent. -/
theorem enumerate_files_witness :
    ((fun _ : String => false)
        (path_join "/tmp/cifar10_data" "cifar-10-batches-bin") = false ∧
      ∃ e, get_filenames (fun _ => false) true "/tmp/cifar10_data" =
        .error e) ∧
    ((fun _ : String => true)
        (path_join "/tmp/cifar10_data" "cifar-10-batches-bin") = true ∧
      get_filenames (fun _ => true) true "/tmp/cifar10_data" = .ok
        (if true then
          [path_join (path_join "/tmp/cifar10_data" "cifar-10-batches-bin")
              "data_batch_1.bin",
            path_join (path_join "/tmp/cifar10_data" "cifar-10-batches-bin")
              "data_batch_2.bin",
            path_join (path_join "/tmp/cifar10_data" "cifar-10-batches-bin")
              "data_batch_3.bin",
            path_join (path_join "/tmp/cifar10_data" "cifar-10-batches-bin")
              "data_batch_4.bin",
            path_join (path_join "/tmp/cifar10_data" "cifar-10-batches-bin")
              "data_batch_5.bin"]
        else
          [path_join (path_join "/tmp/cifar10_data" "cifar-10-batches-bin")
              "test_batch.bin"])) :=
  ⟨⟨rfl, (enumerate_files (fun _ => false) true "/tmp/cifar10_data").1 rfl⟩,
    ⟨rfl, (enumerate_files (fun _ => true) true "/tmp/cifar10_data").2 rfl⟩⟩

/-! ### Batching -/

theorem batch_dataset_flatten {α : Type} (n : Nat) (hn : 0 < n)
    (xs : List α) : (batch_dataset n xs).flatten = xs := by
  rw [batch_dataset]
  have h0 : ¬ n = 0 := by omega
  by_cases he : xs.isEmpty
  · simp only [h0, if_false, he, if_true, List.flatten_nil]
    exact (List.isEmpty_iff.mp he).symm
  · simp only [h0, if_false, he, Bool.false_eq_true, if_false,
      List.flatten_cons]
    rw [batch_dataset_flatten n hn (xs.drop n)]
    exact List.take_append_drop n xs
termination_by xs.length
decreasing_by
  have hne : xs ≠ [] := by simpa [List.isEmpty_iff] using he
  have : xs.length ≠ 0 := fun hc => hne (List.length_eq_zero.mp hc)
  simp only [List.length_drop]
  omega

theorem batch_dataset_shape {α : Type} (n : Nat) (hn : 0 < n) (xs : List α)
    (hne : xs ≠ []) :
    (∀ b ∈ (batch_dataset n xs).dropLast, b.length = n) ∧
    ∃ l, (batch_dataset n xs).getLast? = some l ∧
      l.length = if xs.length % n = 0 then n else xs.length % n := by
  have h0 : ¬ n = 0 := by omega
  have he : ¬ xs.isEmpty := by simp [List.isEmpty_iff, hne]
  have hpos : 0 < xs.length := by
    cases xs with
    | nil => exact absurd rfl hne
    | cons a l => simp
  rw [batch_dataset]
  simp only [h0, if_false, he, Bool.false_eq_true, if_false]
  by_cases hd : xs.drop n = []
  · have hle : xs.length ≤ n := by
      have := List.length_drop n xs
      rw [hd] at this
      simp at this
      omega
    rw [hd, batch_dataset]
    simp only [if_pos rfl, if_true, List.isEmpty_nil]
    refine ⟨by simp [List.dropLast_single], xs.take n, ?_, ?_⟩
    · simp
    · rw [List.take_of_length_le hle]
      rcases Nat.lt_or_ge xs.length n with hlt | hge
      · rw [if_neg, Nat.mod_eq_of_lt hlt]
        rw [Nat.mod_eq_of_lt hlt]
        omega
      · have : xs.length = n := by omega
        rw [this, Nat.mod_self, if_pos rfl]
  · have hlen : n ≤ xs.length := by
      by_contra hc
      exact hd (List.drop_eq_nil_of_le (by omega))
    obtain ⟨ih_front, l, ih_last, ih_len⟩ :=
      batch_dataset_shape n hn (xs.drop n) hd
    have htail_ne : batch_dataset n (xs.drop n) ≠ [] := by
      intro hnil
      rw [hnil] at ih_last
      simp at ih_last
    have hmod : (xs.drop n).length % n = xs.length % n := by
      rw [List.length_drop]
      conv_rhs => rw [← List.take_append_drop n xs]
      rw [List.length_append, List.length_take,
        Nat.min_eq_left hlen, List.length_drop, Nat.add_comm,
        Nat.add_mod_right]
    constructor
    · intro b hb
      rcases List.mem_cons.mp
          (by simpa [List.dropLast_cons_of_ne_nil htail_ne] using hb) with
        h | h
      · rw [h, List.length_take]
        omega
      · exact ih_front b h
    · refine ⟨l, ?_, ?_⟩
      · rw [List.getLast?_cons, ih_last]
        rfl
      · rw [ih_len, hmod]
termination_by xs.length
decreasing_by
  have : xs.length ≠ 0 := fun hc => hne (List.length_eq_zero.mp hc)
  simp only [List.length_drop]
  omega

/-- C7: for every element stream whose length is not a multiple of the
(positive) batch size, the batching step of `input_fn` exposes full batches
of the configured size and keeps the final partial batch — nothing is
dropped: the batches flatten back to the whole stream, every batch before the
last has exactly `batch_size` elements, and the last batch is the nonempty
remainder. -/
theorem batch_preserves_partial {α : Type} (batch_size : Nat) (xs : List α)
    (hn : 0 < batch_size) (hrem : xs.length % batch_size ≠ 0) :
    (batch_dataset batch_size xs).flatten = xs ∧
    (∀ b ∈ (batch_dataset batch_size xs).dropLast, b.length = batch_size) ∧
    ∃ lastb, (batch_dataset batch_size xs).getLast? = some lastb ∧
      lastb.length = xs.length % batch_size ∧ lastb ≠ [] := by
  have hne : xs ≠ [] := by
    intro h
    rw [h] at hrem
    simp at hrem
  obtain ⟨h1, l, h2, h3⟩ := batch_dataset_shape batch_size hn xs hne
  rw [if_neg hrem] at h3
  refine ⟨batch_dataset_flatten _ hn xs, h1, l, h2, h3, ?_⟩
  intro hl
  rw [hl] at h3
  exact hrem h3.symm

/-- Witness for C7: seven elements batched in pairs leave a final singleton
batch. -/
theorem batch_preserves_partial_witness :
    0 < 2 ∧ ([10, 20, 30, 40, 50, 60, 70] : List Nat).length % 2 ≠ 0 ∧
    ((batch_dataset 2 ([10, 20, 30, 40, 50, 60, 70] : List Nat)).flatten =
        [10, 20, 30, 40, 50, 60, 70] ∧
      (∀ b ∈ (batch_dataset 2
          ([10, 20, 30, 40, 50, 60, 70] : List Nat)).dropLast,
        b.length = 2) ∧
      ∃ lastb, (batch_dataset 2
          ([10, 20, 30, 40, 50, 60, 70] : List Nat)).getLast? = some lastb ∧
        lastb.length = ([10, 20, 30, 40, 50, 60, 70] : List Nat).length % 2 ∧
        lastb ≠ []) :=
  ⟨by decide, by decide,
    batch_preserves_partial 2 [10, 20, 30, 40, 50, 60, 70]
      (by decide) (by decide)⟩

/-! ### Record length agreement and evaluation-time preprocessing -/

theorem fixed_length_records_length (n : Nat) (data : List Nat) :
    ∀ r ∈ fixed_length_records n data, r.length = n := by
  intro r hr
  rw [fixed_length_records] at hr
  by_cases h0 : n = 0
  · simp [h0] at hr
  by_cases hlt : data.length < n
  · simp [h0, hlt] at hr
  · simp only [h0, hlt, if_false] at hr
    rcases List.mem_cons.mp hr with h | h
    · rw [h, List.length_take]
      omega
    · exact fixed_length_records_length n (data.drop n) r h
termination_by data.length
decreasing_by
  simp only [List.length_drop]
  omega

/-- C10: the fixed slice length `record_dataset` passes to
`FixedLengthRecordDataset` (`_DEFAULT_IMAGE_SIZE + 1`) equals the record size
`parse_record` consumes (`label_bytes + _DEFAULT_IMAGE_SIZE`), so every
buffer the dataset pipeline hands to `parse_record` has exactly the length
the decoder expects (and therefore decodes). -/
theorem record_length_agreement (file : List Nat) :
    record_dataset_record_bytes = parse_record_bytes ∧
    ∀ r ∈ fixed_length_records record_dataset_record_bytes file,
      r.length = parse_record_bytes ∧ ∃ s, parse_record r = .ok s := by
  refine ⟨by decide, fun r hr => ?_⟩
  have hlen := fixed_length_records_length _ file r hr
  refine ⟨by rw [hlen]; decide, parse_record_ok_of_long r (by rw [hlen]; decide)⟩

/-- Witness for C10: one full 3073-byte record sliced from a 3073-byte
file. -/
theorem record_length_agreement_witness :
    List.replicate 3073 (0 : Nat) ∈
      fixed_length_records record_dataset_record_bytes
        (List.replicate 3073 (0 : Nat)) ∧
    ((List.replicate 3073 (0 : Nat)).length = parse_record_bytes ∧
      ∃ s, parse_record (List.replicate 3073 (0 : Nat)) = .ok s) := by
  have hmem : List.replicate 3073 (0 : Nat) ∈
      fixed_length_records record_dataset_record_bytes
        (List.replicate 3073 (0 : Nat)) := by
    rw [fixed_length_records]
    simp only [List.length_replicate, List.take_replicate,
      List.drop_replicate]
    norm_num
  exact ⟨hmem,
    (record_length_agreement (List.replicate 3073 0)).2 _ hmem⟩

/-- C8: evaluation-time preprocessing is deterministic — it does not consume
the random draws: any two calls on the same image agree, the result is
exactly the per-image standardization (no padding, cropping or flipping is
applied), and each output pixel is the input pixel minus the image's own mean,
divided by the image's own standard deviation floored at
`1 / sqrt(num_elements)`. -/
theorem preprocess_eval_deterministic (image : RImage) (r₁ r₂ : AugRand) :
    preprocess_image image false r₁ = preprocess_image image false r₂ ∧
    preprocess_image image false r₁ = per_image_standardization image ∧
    ∀ (h : Fin HEIGHT) (w : Fin WIDTH) (c : Fin NUM_CHANNELS),
      preprocess_image image false r₁ h w c =
        (image h w c - image_mean image) /
          max (Real.sqrt (image_variance image)) (1 / Real.sqrt 3072) := by
  refine ⟨rfl, rfl, fun h w c => ?_⟩
  show (image h w c - image_mean image) /
      max (Real.sqrt (image_variance image))
        (1 / Real.sqrt ((HEIGHT * WIDTH * NUM_CHANNELS : ℕ) : ℝ)) = _
  norm_num

end Cifar10
